import Mathlib

/-
Verification development for the aws-cleaner repository (Go).

The repository contains two variants of the snapshot-cleanup pipeline:
  * src/services/snapshots.go        — the current variant (namespace Services)
  * src/unnamed/part_000             — an older variant of the same file
                                       (namespace Part000)

Both define (over the AWS SDK types) the sort `sortByCreatedTime`, the
selection function `getToDeleteSnapshots` and the orchestrator
`CleanupSnapshots`.  We embed snapshot records shallowly: a timestamp is an
integer (Go `time.Time.Before`/`After` are the strict orders on instants)
and every pointer-typed field becomes an `Option`.  Go's `sort.Slice`,
applied to a comparator that is a strict weak order, may produce any
ordering consistent with the comparator; we embed it by `List.mergeSort`
with the non-strict comparator `fun a b => !(less b a)` derived from the
source's `less` closure, and we prove the ordering facts from
`sorted_mergeSort`/`mergeSort_perm`, which are exactly the guarantees any
conforming Go sort gives.  A Go runtime panic (nil dereference,
out-of-range slice) is embedded as `none`/a `panicked` outcome.
-/

/-- One inventory record, from `types.Snapshot` of the AWS SDK: the fields the
program reads.  `SnapshotId`, `StartTime`, `VolumeId` are pointers in Go, so
each is an `Option`; a `none` start time models a snapshot whose creation
time the inventory source could not supply. -/
structure Snapshot where
  snapshotId : Option String
  startTime : Option Int
  volumeId : Option String
deriving DecidableEq, Repr

namespace Services

/-- The comparator closure passed to `sort.Slice` in
`sortByCreatedTime` (src/services/snapshots.go, lines 31-50): for "desc" a
nil `StartTime` on the left yields false, a nil on the right yields true,
otherwise `ti.After(*tj)`; the default ("asc") branch is the same with
`ti.Before(*tj)`. -/
def sortLess (order : String) (a b : Snapshot) : Bool :=
  if order = "desc" then
    match a.startTime with
    | none => false
    | some ti =>
      match b.startTime with
      | none => true
      | some tj => decide (tj < ti)
  else
    match a.startTime with
    | none => false
    | some ti =>
      match b.startTime with
      | none => true
      | some tj => decide (ti < tj)

/-- `sortByCreatedTime` (src/services/snapshots.go): `sort.Slice` with the
`sortLess` comparator, embedded as a merge sort ordered by the negation of
the swapped strict comparator (the ordering `sort.Slice` guarantees when
the comparator is a strict weak order, which `sortLess` is: see
`Services.sortLess_asc_total` and `Services.sortLess_asc_trans_neg`). -/
def sortByCreatedTime (snapshotList : List Snapshot) (order : String) : List Snapshot :=
  snapshotList.mergeSort (fun a b => !(sortLess order b a))

/-- The error conditions `getToDeleteSnapshots` reports to the logger
(`logger.Errorf` calls in src/services/snapshots.go, lines 64 and 72). -/
inductive SelLog where
  | bothSetError
  | negativeKeepError
deriving DecidableEq, Repr

/-- `getToDeleteSnapshots` (src/services/snapshots.go, lines 55-98),
with its `logger.Errorf` calls made explicit in the result:
empty input first, then the both-set conflict, then the `keepCount`
branch (negative, zero, `>= n`, slice `[keepCount:]`), then the
`deleteCount` branch (`<= 0`, `>= n`, slice `[:deleteCount]`), else
nothing. -/
def getToDeleteSnapshots (snapshotList : List Snapshot)
    (deleteCount keepCount : Option Int) : List Snapshot × List SelLog :=
  let n : Int := snapshotList.length
  if snapshotList.length = 0 then
    ([], [])
  else if deleteCount.isSome && keepCount.isSome then
    ([], [SelLog.bothSetError])
  else
    match keepCount with
    | some k =>
      if k < 0 then ([], [SelLog.negativeKeepError])
      else if k = 0 then (snapshotList, [])
      else if n ≤ k then ([], [])
      else (snapshotList.drop k.toNat, [])
    | none =>
      match deleteCount with
      | some d =>
        if d ≤ 0 then ([], [])
        else if n ≤ d then (snapshotList, [])
        else (snapshotList.take d.toNat, [])
      | none => ([], [])

end Services

/-- How a run of `CleanupSnapshots` terminates: a normal return (process
exit status 0), `os.Exit` with the given code, or a Go runtime panic. -/
inductive Outcome where
  | normal
  | exited (code : Nat)
  | panicked
deriving DecidableEq, Repr

/-- Observable trace of one `CleanupSnapshots` run: how it terminated,
whether the sort and the selection were reached, the records handed one by
one to the deletion executor, and whether the fetch-error log line was
emitted. -/
structure RunResult where
  outcome : Outcome
  sortInvoked : Bool
  selectInvoked : Bool
  deleted : List Snapshot
  fetchErrorLogged : Bool
deriving DecidableEq, Repr

namespace Services

/-- `CleanupSnapshots` (src/services/snapshots.go, lines 117-160).  The
inventory fetch is the external `DescribeSnapshots` call, embedded by its
Go result pair: `fetchOut = none` models a nil `*DescribeSnapshotsOutput`
(what the SDK returns together with a non-nil error) and `fetchErr` the
error value.  The code logs a fetch error but does not return, so with a
nil output the very next line `out.Snapshots` is a nil-pointer panic.  On
an unrecognized `sortBy` this variant logs and plain-returns (a normal,
exit-status-0 termination). -/
def CleanupSnapshots (fetchOut : Option (List Snapshot)) (fetchErr : Bool)
    (deleteCount keepCount : Option Int) (sortBy : String) : RunResult :=
  match fetchOut with
  | none =>
    { outcome := Outcome.panicked, sortInvoked := false, selectInvoked := false,
      deleted := [], fetchErrorLogged := fetchErr }
  | some snaps =>
    if snaps.length = 0 then
      { outcome := Outcome.normal, sortInvoked := false, selectInvoked := false,
        deleted := [], fetchErrorLogged := fetchErr }
    else if sortBy = "created_time_asc" then
      let sorted := sortByCreatedTime snaps "asc"
      { outcome := Outcome.normal, sortInvoked := true, selectInvoked := true,
        deleted := (getToDeleteSnapshots sorted deleteCount keepCount).1,
        fetchErrorLogged := fetchErr }
    else if sortBy = "created_time_desc" then
      let sorted := sortByCreatedTime snaps "desc"
      { outcome := Outcome.normal, sortInvoked := true, selectInvoked := true,
        deleted := (getToDeleteSnapshots sorted deleteCount keepCount).1,
        fetchErrorLogged := fetchErr }
    else
      { outcome := Outcome.normal, sortInvoked := false, selectInvoked := false,
        deleted := [], fetchErrorLogged := fetchErr }

end Services

namespace Part000

/-- `sortByCreatedTime` of the older variant (src/unnamed/part_000,
lines 25-34): the comparator dereferences `StartTime` unconditionally
(`snapshotList[i].StartTime.After(*snapshotList[j].StartTime)`), so any
comparison touching a record with a nil `StartTime` is a nil-pointer
panic.  A list of length at most one is never compared; in any comparison
sort of a longer list every element takes part in at least one comparison,
so the call panics exactly when the list has length at least two and some
record lacks a timestamp.  `none` embeds the panic. -/
def sortByCreatedTime (snapshotList : List Snapshot) (order : String) :
    Option (List Snapshot) :=
  if snapshotList.length ≤ 1 then some snapshotList
  else if snapshotList.all (fun s => s.startTime.isSome) then
    some (snapshotList.mergeSort (fun a b => !(Services.sortLess order b a)))
  else none

/-- `getToDeleteSnapshots` of the older variant (src/unnamed/part_000,
lines 36-72).  Differences from the current variant, straight from the
source: the `keepCount` branch has no negativity check, so a negative
`keepCount` below `n` reaches the slice `snapshotList[*keepCount:]`, an
out-of-range slice panic (embedded as `none`); the `deleteCount` branch
returns the whole list when `*deleteCount >= n || *deleteCount < 0`. -/
def getToDeleteSnapshots (snapshotList : List Snapshot)
    (deleteCount keepCount : Option Int) : Option (List Snapshot) :=
  let n : Int := snapshotList.length
  if snapshotList.length = 0 then
    some []
  else if deleteCount.isSome && keepCount.isSome then
    some []
  else
    match keepCount with
    | some k =>
      if n ≤ k then some []
      else if k < 0 then none
      else some (snapshotList.drop k.toNat)
    | none =>
      match deleteCount with
      | some d =>
        if d = 0 then some []
        else if n ≤ d ∨ d < 0 then some snapshotList
        else some (snapshotList.take d.toNat)
      | none => some []

/-- `printSnapShotsList` of the older variant (src/unnamed/part_000,
lines 15-23) calls `snap.StartTime.Format(...)` without a nil check: it
panics exactly when some printed record lacks a timestamp.  `true` means
the print completes. -/
def printOk (snapshotList : List Snapshot) : Bool :=
  snapshotList.all (fun s => s.startTime.isSome)

/-- `CleanupSnapshots` of the older variant (src/unnamed/part_000,
lines 87-129).  Same fetch handling as the current variant (fetch error is
logged, then `out.Snapshots` panics on the nil output), but the
unrecognized-`sortBy` branch calls `os.Exit(1)`.  The "desc" branch prints
the sorted list before selection (a panic when a record lacks a
timestamp); both branches print the delete-set before the (stubbed-out)
executor loop. -/
def CleanupSnapshots (fetchOut : Option (List Snapshot)) (fetchErr : Bool)
    (deleteCount keepCount : Option Int) (sortBy : String) : RunResult :=
  match fetchOut with
  | none =>
    { outcome := Outcome.panicked, sortInvoked := false, selectInvoked := false,
      deleted := [], fetchErrorLogged := fetchErr }
  | some snaps =>
    if snaps.length = 0 then
      { outcome := Outcome.normal, sortInvoked := false, selectInvoked := false,
        deleted := [], fetchErrorLogged := fetchErr }
    else if sortBy = "created_time_asc" then
      match sortByCreatedTime snaps "asc" with
      | none =>
        { outcome := Outcome.panicked, sortInvoked := true, selectInvoked := false,
          deleted := [], fetchErrorLogged := fetchErr }
      | some sorted =>
        match getToDeleteSnapshots sorted deleteCount keepCount with
        | none =>
          { outcome := Outcome.panicked, sortInvoked := true, selectInvoked := true,
            deleted := [], fetchErrorLogged := fetchErr }
        | some toDelete =>
          if printOk toDelete then
            { outcome := Outcome.normal, sortInvoked := true, selectInvoked := true,
              deleted := toDelete, fetchErrorLogged := fetchErr }
          else
            { outcome := Outcome.panicked, sortInvoked := true, selectInvoked := true,
              deleted := [], fetchErrorLogged := fetchErr }
    else if sortBy = "created_time_desc" then
      match sortByCreatedTime snaps "desc" with
      | none =>
        { outcome := Outcome.panicked, sortInvoked := true, selectInvoked := false,
          deleted := [], fetchErrorLogged := fetchErr }
      | some sorted =>
        if printOk sorted then
          match getToDeleteSnapshots sorted deleteCount keepCount with
          | none =>
            { outcome := Outcome.panicked, sortInvoked := true, selectInvoked := true,
              deleted := [], fetchErrorLogged := fetchErr }
          | some toDelete =>
            if printOk toDelete then
              { outcome := Outcome.normal, sortInvoked := true, selectInvoked := true,
                deleted := toDelete, fetchErrorLogged := fetchErr }
            else
              { outcome := Outcome.panicked, sortInvoked := true, selectInvoked := true,
                deleted := [], fetchErrorLogged := fetchErr }
        else
          { outcome := Outcome.panicked, sortInvoked := true, selectInvoked := false,
            deleted := [], fetchErrorLogged := fetchErr }
    else
      { outcome := Outcome.exited 1, sortInvoked := false, selectInvoked := false,
        deleted := [], fetchErrorLogged := fetchErr }

end Part000

/-- Sample record: id snap-a, created at instant 1. -/
def snapA : Snapshot :=
  { snapshotId := some "snap-a", startTime := some 1, volumeId := some "vol-a" }

/-- Sample record: id snap-b, created at instant 2. -/
def snapB : Snapshot :=
  { snapshotId := some "snap-b", startTime := some 2, volumeId := some "vol-b" }

/-- Sample record: id snap-c, created at instant 3. -/
def snapC : Snapshot :=
  { snapshotId := some "snap-c", startTime := some 3, volumeId := some "vol-c" }

/-- Sample record with no creation timestamp. -/
def snapN : Snapshot :=
  { snapshotId := some "snap-n", startTime := none, volumeId := some "vol-n" }

/-- Whether a record carries a creation timestamp (the condition the
source tests with `snap.StartTime != nil`). -/
def hasTime (s : Snapshot) : Bool := s.startTime.isSome

namespace Services

lemma sortLess_asc (a b : Snapshot) : sortLess "asc" a b =
    (match a.startTime with
     | none => false
     | some ti =>
       match b.startTime with
       | none => true
       | some tj => decide (ti < tj)) := by
  simp [sortLess]

lemma sortLess_desc (a b : Snapshot) : sortLess "desc" a b =
    (match a.startTime with
     | none => false
     | some ti =>
       match b.startTime with
       | none => true
       | some tj => decide (tj < ti)) := by
  simp [sortLess]

lemma sortLess_asc_trans_neg (a b c : Snapshot)
    (hab : (!(sortLess "asc" b a)) = true) (hbc : (!(sortLess "asc" c b)) = true) :
    (!(sortLess "asc" c a)) = true := by
  rcases ha : a.startTime with _ | ta <;> rcases hb : b.startTime with _ | tb <;>
      rcases hc : c.startTime with _ | tc <;>
    simp [sortLess_asc, ha, hb, hc] at hab hbc ⊢ <;> omega

lemma sortLess_asc_total (a b : Snapshot) :
    ((!(sortLess "asc" b a)) || (!(sortLess "asc" a b))) = true := by
  rcases ha : a.startTime with _ | ta <;> rcases hb : b.startTime with _ | tb <;>
    simp [sortLess_asc, ha, hb] <;> omega

lemma sortLess_desc_trans_neg (a b c : Snapshot)
    (hab : (!(sortLess "desc" b a)) = true) (hbc : (!(sortLess "desc" c b)) = true) :
    (!(sortLess "desc" c a)) = true := by
  rcases ha : a.startTime with _ | ta <;> rcases hb : b.startTime with _ | tb <;>
      rcases hc : c.startTime with _ | tc <;>
    simp [sortLess_desc, ha, hb, hc] at hab hbc ⊢ <;> omega

lemma sortLess_desc_total (a b : Snapshot) :
    ((!(sortLess "desc" b a)) || (!(sortLess "desc" a b))) = true := by
  rcases ha : a.startTime with _ | ta <;> rcases hb : b.startTime with _ | tb <;>
    simp [sortLess_desc, ha, hb] <;> omega

/-- The sort only permutes the input list. -/
lemma sortByCreatedTime_perm (l : List Snapshot) (order : String) :
    List.Perm (sortByCreatedTime l order) l :=
  List.mergeSort_perm l _

/-- The ascending sort is pairwise ordered: timestamped records come
(weakly) in increasing order and missing-timestamp records sink to the
end. -/
lemma sortByCreatedTime_pairwise_asc (l : List Snapshot) :
    (sortByCreatedTime l "asc").Pairwise (fun a b =>
      (a.startTime = none → b.startTime = none) ∧
      ∀ ta tb, a.startTime = some ta → b.startTime = some tb → ta ≤ tb) := by
  have hs := List.sorted_mergeSort
    sortLess_asc_trans_neg sortLess_asc_total l
  refine (hs.imp fun {a b} h => ?_)
  rcases ha : a.startTime with _ | ta <;> rcases hb : b.startTime with _ | tb <;>
    simp [sortLess_asc, ha, hb] at h ⊢ <;> omega

/-- The descending sort is pairwise ordered: timestamped records come
(weakly) in decreasing order and missing-timestamp records sink to the
end. -/
lemma sortByCreatedTime_pairwise_desc (l : List Snapshot) :
    (sortByCreatedTime l "desc").Pairwise (fun a b =>
      (a.startTime = none → b.startTime = none) ∧
      ∀ ta tb, a.startTime = some ta → b.startTime = some tb → tb ≤ ta) := by
  have hs := List.sorted_mergeSort
    sortLess_desc_trans_neg sortLess_desc_total l
  refine (hs.imp fun {a b} h => ?_)
  rcases ha : a.startTime with _ | ta <;> rcases hb : b.startTime with _ | tb <;>
    simp [sortLess_desc, ha, hb] at h ⊢ <;> omega

end Services

namespace Services

/-- On a non-empty list with only `keepCount` set, `getToDeleteSnapshots`
reduces to the four-way case split of its `keepCount` branch. -/
lemma getToDeleteSnapshots_keep (l : List Snapshot) (k : Int) (hne : l ≠ []) :
    getToDeleteSnapshots l none (some k) =
      if k < 0 then ([], [SelLog.negativeKeepError])
      else if k = 0 then (l, [])
      else if (l.length : Int) ≤ k then ([], [])
      else (l.drop k.toNat, []) := by
  have h0 : ¬ l.length = 0 := by simpa [List.length_eq_zero] using hne
  unfold getToDeleteSnapshots
  simp [h0]

/-- On a non-empty list with only `deleteCount` set, `getToDeleteSnapshots`
reduces to the three-way case split of its `deleteCount` branch. -/
lemma getToDeleteSnapshots_delete (l : List Snapshot) (d : Int) (hne : l ≠ []) :
    getToDeleteSnapshots l (some d) none =
      if d ≤ 0 then ([], [])
      else if (l.length : Int) ≤ d then (l, [])
      else (l.take d.toNat, []) := by
  have h0 : ¬ l.length = 0 := by simpa [List.length_eq_zero] using hne
  unfold getToDeleteSnapshots
  simp [h0]

end Services

/-- C1: for every already-sorted record list of length n and a directive
with only `KeepCount` set: `KeepCount = 0` returns the whole input list in
the same relative order; `KeepCount ≥ n` returns the empty sequence; and
`0 < KeepCount < n` returns exactly the elements at positions
`KeepCount..n-1` of the sorted order, in order (the drop of the first
`KeepCount` elements). -/
theorem keepCount_selection_spec (l : List Snapshot) (k : Int) :
    (k = 0 → (Services.getToDeleteSnapshots l none (some k)).1 = l) ∧
    ((l.length : Int) ≤ k → (Services.getToDeleteSnapshots l none (some k)).1 = []) ∧
    (0 < k → k < (l.length : Int) →
      (Services.getToDeleteSnapshots l none (some k)).1 = l.drop k.toNat) := by
  rcases eq_or_ne l [] with rfl | hne
  · refine ⟨?_, ?_, ?_⟩ <;> intros <;>
      simp_all [Services.getToDeleteSnapshots] <;> omega
  · have hn1 : 0 < l.length := List.length_pos.mpr hne
    refine ⟨?_, ?_, ?_⟩
    · intro hk
      subst hk
      simp [Services.getToDeleteSnapshots_keep l 0 hne]
    · intro hk
      rw [Services.getToDeleteSnapshots_keep l k hne]
      split_ifs <;> first | rfl | omega
    · intro hk1 hk2
      rw [Services.getToDeleteSnapshots_keep l k hne]
      split_ifs <;> first | rfl | omega

/-- C1 witness: on a three-record list, keep 0 deletes all, keep 3 deletes
nothing, keep 1 deletes the records at positions 1 and 2. -/
theorem keepCount_selection_spec_witness :
    (Services.getToDeleteSnapshots [snapA, snapB, snapC] none (some 0)).1 =
        [snapA, snapB, snapC] ∧
    (Services.getToDeleteSnapshots [snapA, snapB, snapC] none (some 3)).1 = [] ∧
    (Services.getToDeleteSnapshots [snapA, snapB, snapC] none (some 1)).1 =
        [snapB, snapC] := by
  refine ⟨(keepCount_selection_spec [snapA, snapB, snapC] 0).1 rfl, ?_, ?_⟩
  · exact (keepCount_selection_spec [snapA, snapB, snapC] 3).2.1 (by decide)
  · have h := (keepCount_selection_spec [snapA, snapB, snapC] 1).2.2
      (by decide) (by decide)
    simpa using h

/-- C2: for every already-sorted record list of length n and a directive
with only `DeleteCount` set: `DeleteCount ≤ 0` (every non-positive value)
returns the empty sequence; `DeleteCount ≥ n` returns the whole list; and
`0 < DeleteCount < n` returns exactly the first `DeleteCount` elements of
the sorted order, in order. -/
theorem deleteCount_selection_spec (l : List Snapshot) (d : Int) :
    (d ≤ 0 → (Services.getToDeleteSnapshots l (some d) none).1 = []) ∧
    ((l.length : Int) ≤ d → (Services.getToDeleteSnapshots l (some d) none).1 = l) ∧
    (0 < d → d < (l.length : Int) →
      (Services.getToDeleteSnapshots l (some d) none).1 = l.take d.toNat) := by
  rcases eq_or_ne l [] with rfl | hne
  · refine ⟨?_, ?_, ?_⟩ <;> intros <;>
      simp_all [Services.getToDeleteSnapshots] <;> omega
  · have hn1 : 0 < l.length := List.length_pos.mpr hne
    refine ⟨?_, ?_, ?_⟩
    · intro hd
      rw [Services.getToDeleteSnapshots_delete l d hne]
      split_ifs <;> first | rfl | omega
    · intro hd
      rw [Services.getToDeleteSnapshots_delete l d hne]
      split_ifs <;> first | rfl | omega
    · intro hd1 hd2
      rw [Services.getToDeleteSnapshots_delete l d hne]
      split_ifs <;> first | rfl | omega

/-- C2 witness: on a three-record list, delete -1 and delete 0 remove
nothing, delete 3 removes everything, delete 2 removes the first two. -/
theorem deleteCount_selection_spec_witness :
    (Services.getToDeleteSnapshots [snapA, snapB, snapC] (some (-1)) none).1 = [] ∧
    (Services.getToDeleteSnapshots [snapA, snapB, snapC] (some 3) none).1 =
        [snapA, snapB, snapC] ∧
    (Services.getToDeleteSnapshots [snapA, snapB, snapC] (some 2) none).1 =
        [snapA, snapB] := by
  refine ⟨(deleteCount_selection_spec [snapA, snapB, snapC] (-1)).1 (by decide),
    (deleteCount_selection_spec [snapA, snapB, snapC] 3).2.1 (by decide), ?_⟩
  have h := (deleteCount_selection_spec [snapA, snapB, snapC] 2).2.2
    (by decide) (by decide)
  simpa using h

/-- C3: after `sortByCreatedTime`, in both directions, any record without
a creation timestamp is ordered after every record that has one; among
records that both have timestamps, "asc" places the earlier timestamp
first and "desc" places the later timestamp first. -/
theorem sortByCreatedTime_order_spec (l : List Snapshot) :
    ((Services.sortByCreatedTime l "asc").Pairwise (fun a b =>
        (a.startTime = none → b.startTime = none) ∧
        ∀ ta tb, a.startTime = some ta → b.startTime = some tb → ta ≤ tb)) ∧
    ((Services.sortByCreatedTime l "desc").Pairwise (fun a b =>
        (a.startTime = none → b.startTime = none) ∧
        ∀ ta tb, a.startTime = some ta → b.startTime = some tb → tb ≤ ta)) :=
  ⟨Services.sortByCreatedTime_pairwise_asc l, Services.sortByCreatedTime_pairwise_desc l⟩

/-- C4: on every non-empty record list, setting both counts (any integer
values, including 0 and negatives) yields the empty delete-set together
with the policy-conflict error log — never a silent choice of one
directive. -/
theorem both_counts_conflict_spec (l : List Snapshot) (hne : l ≠ []) (d k : Int) :
    Services.getToDeleteSnapshots l (some d) (some k) =
      ([], [Services.SelLog.bothSetError]) := by
  have h0 : ¬ l.length = 0 := by simpa [List.length_eq_zero] using hne
  unfold Services.getToDeleteSnapshots
  simp [h0]

/-- C4 witness: both counts zero on a singleton list. -/
theorem both_counts_conflict_spec_witness :
    Services.getToDeleteSnapshots [snapA] (some 0) (some 0) =
      ([], [Services.SelLog.bothSetError]) :=
  both_counts_conflict_spec [snapA] (List.cons_ne_nil snapA []) 0 0

/-- C5: on every non-empty record list, a negative `keepCount` alone yields
the empty delete-set together with the negative-keep error log; the
function returns normally (no other failure). -/
theorem negative_keepCount_spec (l : List Snapshot) (hne : l ≠ []) (k : Int)
    (hk : k < 0) :
    Services.getToDeleteSnapshots l none (some k) =
      ([], [Services.SelLog.negativeKeepError]) := by
  rw [Services.getToDeleteSnapshots_keep l k hne]
  simp [hk]

/-- C5 witness: keep -1 on a singleton list. -/
theorem negative_keepCount_spec_witness :
    Services.getToDeleteSnapshots [snapA] none (some (-1)) =
      ([], [Services.SelLog.negativeKeepError]) :=
  negative_keepCount_spec [snapA] (List.cons_ne_nil snapA []) (-1) (by decide)

namespace Part000

/-- On a non-empty list with only `keepCount` set, the older
`getToDeleteSnapshots` reduces to its three cases: `>= n`, the
out-of-range (panicking) negative slice, and the plain drop. -/
lemma getToDeleteSnapshots_keep_old (l : List Snapshot) (k : Int) (hne : l ≠ []) :
    getToDeleteSnapshots l none (some k) =
      if (l.length : Int) ≤ k then some []
      else if k < 0 then none
      else some (l.drop k.toNat) := by
  have h0 : ¬ l.length = 0 := by simpa [List.length_eq_zero] using hne
  unfold getToDeleteSnapshots
  simp [h0]

/-- On a non-empty list with only `deleteCount` set, the older
`getToDeleteSnapshots` reduces to its three cases: zero, the
delete-all case `>= n || < 0`, and the plain take. -/
lemma getToDeleteSnapshots_delete_old (l : List Snapshot) (d : Int) (hne : l ≠ []) :
    getToDeleteSnapshots l (some d) none =
      if d = 0 then some []
      else if (l.length : Int) ≤ d ∨ d < 0 then some l
      else some (l.take d.toNat) := by
  have h0 : ¬ l.length = 0 := by simpa [List.length_eq_zero] using hne
  unfold getToDeleteSnapshots
  simp [h0]

end Part000

/-- C6 (bug evidence): with the unrecognized sort key "foo" and a
non-empty inventory, both variants halt before any deletion — the deletion
executor is never invoked and selection is never reached — but the
src/services/snapshots.go variant terminates normally (process exit status
0, indistinguishable from the success path), while the src/unnamed/part_000
variant calls `os.Exit(1)` as the claim demands. -/
theorem unrecognized_sortBy_run (deleteCount keepCount : Option Int) :
    Services.CleanupSnapshots (some [snapA]) false deleteCount keepCount "foo" =
      { outcome := Outcome.normal, sortInvoked := false, selectInvoked := false,
        deleted := [], fetchErrorLogged := false } ∧
    Part000.CleanupSnapshots (some [snapA]) false deleteCount keepCount "foo" =
      { outcome := Outcome.exited 1, sortInvoked := false, selectInvoked := false,
        deleted := [], fetchErrorLogged := false } :=
  ⟨rfl, rfl⟩

/-- C7: when the inventory fetch fails (the SDK returns a nil output
together with the error), both variants log the error and then hit the nil
dereference `out.Snapshots`: the run dies on the spot — no sorting, no
selection, and no deletion is attempted after the fetch failure. -/
theorem fetch_error_run (deleteCount keepCount : Option Int) (sortBy : String) :
    Services.CleanupSnapshots none true deleteCount keepCount sortBy =
      { outcome := Outcome.panicked, sortInvoked := false, selectInvoked := false,
        deleted := [], fetchErrorLogged := true } ∧
    Part000.CleanupSnapshots none true deleteCount keepCount sortBy =
      { outcome := Outcome.panicked, sortInvoked := false, selectInvoked := false,
        deleted := [], fetchErrorLogged := true } :=
  ⟨rfl, rfl⟩

/-- C9 counterexample: the two selection variants do not compute the same
delete-set on every input — on a one-record list with `deleteCount = -1`,
the current variant deletes nothing while the older variant deletes
everything. -/
theorem variants_divergence_counterexample :
    Part000.getToDeleteSnapshots [snapA] (some (-1)) none ≠
      some (Services.getToDeleteSnapshots [snapA] (some (-1)) none).1 := by
  decide

/-- C9 amended: whenever every count that is set is non-negative, the two
selection variants compute the same delete-set (and the older one does not
panic); their divergences are confined to negative counts. -/
theorem variants_agree_on_nonneg_counts (l : List Snapshot)
    (deleteCount keepCount : Option Int)
    (hd : ∀ d, deleteCount = some d → 0 ≤ d)
    (hk : ∀ k, keepCount = some k → 0 ≤ k) :
    Part000.getToDeleteSnapshots l deleteCount keepCount =
      some (Services.getToDeleteSnapshots l deleteCount keepCount).1 := by
  rcases eq_or_ne l [] with rfl | hne
  · rcases deleteCount with _ | d <;> rcases keepCount with _ | k <;>
      simp [Part000.getToDeleteSnapshots, Services.getToDeleteSnapshots]
  · have hn1 : 0 < l.length := List.length_pos.mpr hne
    have h0 : ¬ l.length = 0 := by omega
    rcases keepCount with _ | k
    · rcases deleteCount with _ | d
      · simp [Part000.getToDeleteSnapshots, Services.getToDeleteSnapshots, h0]
      · have hd0 : 0 ≤ d := hd d rfl
        rw [Part000.getToDeleteSnapshots_delete_old l d hne,
          Services.getToDeleteSnapshots_delete l d hne]
        split_ifs <;> first | rfl | omega
    · have hk0 : 0 ≤ k := hk k rfl
      rcases deleteCount with _ | d
      · rw [Part000.getToDeleteSnapshots_keep_old l k hne,
          Services.getToDeleteSnapshots_keep l k hne]
        split_ifs <;> first | rfl | omega | simp_all | (simp_all; omega)
      · simp [Part000.getToDeleteSnapshots, Services.getToDeleteSnapshots, h0]

/-- C9 amended witness: at non-negative counts the variants agree, shown
at keep 1 on a two-record list. -/
theorem variants_agree_on_nonneg_counts_witness :
    Part000.getToDeleteSnapshots [snapA, snapB] none (some 1) =
      some (Services.getToDeleteSnapshots [snapA, snapB] none (some 1)).1 :=
  variants_agree_on_nonneg_counts [snapA, snapB] none (some 1)
    (fun d h => by cases h) (fun k h => by cases h; decide)

namespace Services

/-- On the empty list `getToDeleteSnapshots` returns immediately. -/
lemma getToDeleteSnapshots_nil (deleteCount keepCount : Option Int) :
    getToDeleteSnapshots [] deleteCount keepCount = ([], []) := rfl

/-- With neither count set, `getToDeleteSnapshots` deletes nothing. -/
lemma getToDeleteSnapshots_none_none (l : List Snapshot) :
    getToDeleteSnapshots l none none = ([], []) := by
  unfold getToDeleteSnapshots
  split_ifs <;> first | rfl | simp_all

/-- On a non-empty list with both counts set, `getToDeleteSnapshots`
returns the empty delete-set and the conflict log. -/
lemma getToDeleteSnapshots_both (l : List Snapshot) (d k : Int) (hne : l ≠ []) :
    getToDeleteSnapshots l (some d) (some k) = ([], [SelLog.bothSetError]) := by
  have h0 : ¬ l.length = 0 := by simpa [List.length_eq_zero] using hne
  unfold getToDeleteSnapshots
  simp [h0]

/-- Every branch of `getToDeleteSnapshots` returns the empty list, the
whole list, a drop, or a take of the input. -/
lemma getToDeleteSnapshots_shape (l : List Snapshot)
    (deleteCount keepCount : Option Int) :
    (getToDeleteSnapshots l deleteCount keepCount).1 = [] ∨
    (getToDeleteSnapshots l deleteCount keepCount).1 = l ∨
    (∃ n, (getToDeleteSnapshots l deleteCount keepCount).1 = l.drop n) ∨
    (∃ n, (getToDeleteSnapshots l deleteCount keepCount).1 = l.take n) := by
  rcases eq_or_ne l [] with rfl | hne
  · rw [getToDeleteSnapshots_nil]
    exact Or.inl rfl
  · rcases keepCount with _ | k
    · rcases deleteCount with _ | d
      · rw [getToDeleteSnapshots_none_none]
        exact Or.inl rfl
      · rw [getToDeleteSnapshots_delete l d hne]
        split_ifs <;>
          first
            | exact Or.inl rfl
            | exact Or.inr (Or.inl rfl)
            | exact Or.inr (Or.inr (Or.inr ⟨_, rfl⟩))
    · rcases deleteCount with _ | d
      · rw [getToDeleteSnapshots_keep l k hne]
        split_ifs <;>
          first
            | exact Or.inl rfl
            | exact Or.inr (Or.inl rfl)
            | exact Or.inr (Or.inr (Or.inl ⟨_, rfl⟩))
      · rw [getToDeleteSnapshots_both l d k hne]
        exact Or.inl rfl

end Services

namespace Part000

/-- On the empty list the older `getToDeleteSnapshots` returns
immediately. -/
lemma getToDeleteSnapshots_nil_old (deleteCount keepCount : Option Int) :
    getToDeleteSnapshots [] deleteCount keepCount = some [] := rfl

/-- With neither count set, the older `getToDeleteSnapshots` deletes
nothing. -/
lemma getToDeleteSnapshots_none_none_old (l : List Snapshot) :
    getToDeleteSnapshots l none none = some [] := by
  unfold getToDeleteSnapshots
  split_ifs <;> first | rfl | simp_all

/-- On a non-empty list with both counts set, the older
`getToDeleteSnapshots` returns the empty delete-set. -/
lemma getToDeleteSnapshots_both_old (l : List Snapshot) (d k : Int) (hne : l ≠ []) :
    getToDeleteSnapshots l (some d) (some k) = some [] := by
  have h0 : ¬ l.length = 0 := by simpa [List.length_eq_zero] using hne
  unfold getToDeleteSnapshots
  simp [h0]

/-- Every non-panicking branch of the older `getToDeleteSnapshots` returns
the empty list, the whole list, a drop, or a take of the input. -/
lemma getToDeleteSnapshots_shape_old (l : List Snapshot)
    (deleteCount keepCount : Option Int) (out : List Snapshot)
    (h : getToDeleteSnapshots l deleteCount keepCount = some out) :
    out = [] ∨ out = l ∨ (∃ n, out = l.drop n) ∨ (∃ n, out = l.take n) := by
  rcases eq_or_ne l [] with rfl | hne
  · rw [getToDeleteSnapshots_nil_old] at h
    injection h with h
    exact Or.inl h.symm
  · rcases keepCount with _ | k
    · rcases deleteCount with _ | d
      · rw [getToDeleteSnapshots_none_none_old] at h
        injection h with h
        exact Or.inl h.symm
      · rw [getToDeleteSnapshots_delete_old l d hne] at h
        split_ifs at h <;> injection h with h <;>
          first
            | exact Or.inl h.symm
            | exact Or.inr (Or.inl h.symm)
            | exact Or.inr (Or.inr (Or.inr ⟨_, h.symm⟩))
    · rcases deleteCount with _ | d
      · rw [getToDeleteSnapshots_keep_old l k hne] at h
        split_ifs at h <;> injection h with h <;>
          first
            | exact Or.inl h.symm
            | exact Or.inr (Or.inl h.symm)
            | exact Or.inr (Or.inr (Or.inl ⟨_, h.symm⟩))
      · rw [getToDeleteSnapshots_both_old l d k hne] at h
        injection h with h
        exact Or.inl h.symm

end Part000

/-- C10: in both variants, every delete-set is a contiguous slice of the
input list — there are lists s and t with input = s ++ delete-set ++ t —
so each returned record occurs in the input, nothing is fabricated or
duplicated beyond the input, relative order is preserved, and the output
is never longer than the input.  For the older variant this holds for
every non-panicking result. -/
theorem delete_set_contiguous_slice (l : List Snapshot)
    (deleteCount keepCount : Option Int) :
    (∃ s t, l = s ++ (Services.getToDeleteSnapshots l deleteCount keepCount).1 ++ t) ∧
    (Services.getToDeleteSnapshots l deleteCount keepCount).1.length ≤ l.length ∧
    (∀ out, Part000.getToDeleteSnapshots l deleteCount keepCount = some out →
      (∃ s t, l = s ++ out ++ t) ∧ out.length ≤ l.length) := by
  have key : ∀ out : List Snapshot,
      (out = [] ∨ out = l ∨ (∃ n, out = l.drop n) ∨ (∃ n, out = l.take n)) →
      (∃ s t, l = s ++ out ++ t) ∧ out.length ≤ l.length := by
    rintro out (rfl | rfl | ⟨n, rfl⟩ | ⟨n, rfl⟩)
    · exact ⟨⟨l, [], by simp⟩, by simp⟩
    · exact ⟨⟨[], [], by simp⟩, le_refl _⟩
    · refine ⟨⟨l.take n, [], by simp⟩, ?_⟩
      simp only [List.length_drop]
      omega
    · refine ⟨⟨[], l.drop n, by simp⟩, ?_⟩
      simp only [List.length_take]
      omega
  refine ⟨(key _ (Services.getToDeleteSnapshots_shape l deleteCount keepCount)).1,
    (key _ (Services.getToDeleteSnapshots_shape l deleteCount keepCount)).2,
    fun out h => key out (Part000.getToDeleteSnapshots_shape_old l deleteCount keepCount out h)⟩

/-- C10 witness: deleting 1 of 2 records in the older variant yields
[snapA], a contiguous slice of the input of no greater length. -/
theorem delete_set_contiguous_slice_witness :
    (∃ s t, [snapA, snapB] = s ++ [snapA] ++ t) ∧
      ([snapA] : List Snapshot).length ≤ ([snapA, snapB] : List Snapshot).length :=
  (delete_set_contiguous_slice [snapA, snapB] (some 1) none).2.2 [snapA] (by decide)

namespace Services

/-- In a list where a missing timestamp is inherited rightward (the
pairwise guarantee the sort produces), everything after the first
missing-timestamp record — the `dropWhile` of `hasTime` — lacks a
timestamp. -/
lemma dropWhile_none_of_pairwise {A : List Snapshot}
    (hp : A.Pairwise (fun a b => a.startTime = none → b.startTime = none)) :
    ∀ x ∈ A.dropWhile hasTime, x.startTime = none := by
  induction A with
  | nil => simp
  | cons a t ih =>
    rw [List.pairwise_cons] at hp
    intro x hx
    rw [List.dropWhile_cons] at hx
    by_cases hpa : hasTime a = true
    · rw [if_pos hpa] at hx
      exact ih hp.2 x hx
    · rw [if_neg hpa] at hx
      have hanone : a.startTime = none := by
        rcases h : a.startTime with _ | v
        · rfl
        · simp [hasTime, h] at hpa
      rcases List.mem_cons.mp hx with rfl | hx2
      · exact hanone
      · exact hp.1 x hx2 hanone

/-- When the `dropWhile hasTime` tail consists of missing-timestamp
records only, its length is the number of missing-timestamp records in
the whole list. -/
lemma length_dropWhile_hasTime {A : List Snapshot}
    (h : ∀ x ∈ A.dropWhile hasTime, x.startTime = none) :
    (A.dropWhile hasTime).length = A.countP (fun s => !(hasTime s)) := by
  have hsplit : A.takeWhile hasTime ++ A.dropWhile hasTime = A :=
    List.takeWhile_append_dropWhile hasTime A
  have h1 : (A.takeWhile hasTime).countP (fun s => !(hasTime s)) = 0 :=
    List.countP_eq_zero.mpr (fun a ha => by
      simp [List.mem_takeWhile_imp ha])
  have h2 : (A.dropWhile hasTime).countP (fun s => !(hasTime s)) =
      (A.dropWhile hasTime).length :=
    List.countP_eq_length.mpr (fun a ha => by
      simp [hasTime, h a ha])
  have hc := congrArg (List.countP (fun s => !(hasTime s))) hsplit
  rw [List.countP_append, h1, h2] at hc
  omega

/-- The timestamps extracted from the ascending sort are weakly
increasing. -/
lemma filterMap_sorted_asc (l : List Snapshot) :
    ((sortByCreatedTime l "asc").filterMap Snapshot.startTime).Pairwise
      (fun a b : Int => a ≤ b) :=
  (sortByCreatedTime_pairwise_asc l).filterMap Snapshot.startTime
    (fun a b hR x hx y hy =>
      hR.2 x y (Option.mem_def.mp hx) (Option.mem_def.mp hy))

/-- The timestamps extracted from the descending sort are weakly
decreasing. -/
lemma filterMap_sorted_desc (l : List Snapshot) :
    ((sortByCreatedTime l "desc").filterMap Snapshot.startTime).Pairwise
      (fun a b : Int => b ≤ a) :=
  (sortByCreatedTime_pairwise_desc l).filterMap Snapshot.startTime
    (fun a b hR x hx y hy =>
      hR.2 x y (Option.mem_def.mp hx) (Option.mem_def.mp hy))

/-- Reversing the timestamp sequence of the ascending sort gives exactly
the timestamp sequence of the descending sort. -/
lemma filterMap_reverse_asc_eq_desc (l : List Snapshot) :
    ((sortByCreatedTime l "asc").filterMap Snapshot.startTime).reverse =
      (sortByCreatedTime l "desc").filterMap Snapshot.startTime := by
  haveI : IsAntisymm Int (fun a b : Int => b ≤ a) :=
    ⟨fun a b h1 h2 => le_antisymm h2 h1⟩
  have hperm : List.Perm
      (((sortByCreatedTime l "asc").filterMap Snapshot.startTime).reverse)
      ((sortByCreatedTime l "desc").filterMap Snapshot.startTime) :=
    (List.reverse_perm _).trans
      (((sortByCreatedTime_perm l "asc").filterMap _).trans
        ((sortByCreatedTime_perm l "desc").filterMap _).symm)
  have hs1 : List.Sorted (fun a b : Int => b ≤ a)
      (((sortByCreatedTime l "asc").filterMap Snapshot.startTime).reverse) :=
    List.pairwise_reverse.mpr (filterMap_sorted_asc l)
  have hs2 : List.Sorted (fun a b : Int => b ≤ a)
      ((sortByCreatedTime l "desc").filterMap Snapshot.startTime) :=
    filterMap_sorted_desc l
  exact List.eq_of_perm_of_sorted hperm hs1 hs2

end Services

/-- C8: on every non-empty record list, reversing the ascending sort gives
the descending sort on the records that have timestamps — stated on the
timestamp sequences, which is what the comparator determines (records with
equal timestamps are interchangeable for Go's unstable `sort.Slice`) —
while the missing-timestamp records are not reversed: they occupy the tail
block (`dropWhile hasTime`) of the same length in both directions, with
every record before that block timestamped and every record in it
timestamp-free, so pure reversal is not literally equal. -/
theorem sort_reversal_spec (l : List Snapshot) (hne : l ≠ []) :
    ((Services.sortByCreatedTime l "asc").filterMap Snapshot.startTime).reverse =
        (Services.sortByCreatedTime l "desc").filterMap Snapshot.startTime ∧
    (∀ x ∈ (Services.sortByCreatedTime l "asc").takeWhile hasTime,
        x.startTime ≠ none) ∧
    (∀ x ∈ (Services.sortByCreatedTime l "asc").dropWhile hasTime,
        x.startTime = none) ∧
    (∀ x ∈ (Services.sortByCreatedTime l "desc").takeWhile hasTime,
        x.startTime ≠ none) ∧
    (∀ x ∈ (Services.sortByCreatedTime l "desc").dropWhile hasTime,
        x.startTime = none) ∧
    ((Services.sortByCreatedTime l "asc").dropWhile hasTime).length =
        ((Services.sortByCreatedTime l "desc").dropWhile hasTime).length ∧
    (Services.sortByCreatedTime l "asc").length = l.length ∧
    (Services.sortByCreatedTime l "desc").length = l.length := by
  have hA : (Services.sortByCreatedTime l "asc").Pairwise
      (fun a b => a.startTime = none → b.startTime = none) :=
    (Services.sortByCreatedTime_pairwise_asc l).imp (fun h => h.1)
  have hD : (Services.sortByCreatedTime l "desc").Pairwise
      (fun a b => a.startTime = none → b.startTime = none) :=
    (Services.sortByCreatedTime_pairwise_desc l).imp (fun h => h.1)
  have hdropA := Services.dropWhile_none_of_pairwise hA
  have hdropD := Services.dropWhile_none_of_pairwise hD
  refine ⟨Services.filterMap_reverse_asc_eq_desc l, ?_, hdropA, ?_, hdropD,
    ?_, ?_, ?_⟩
  · intro x hx hnone
    have := List.mem_takeWhile_imp hx
    simp [hasTime, hnone] at this
  · intro x hx hnone
    have := List.mem_takeWhile_imp hx
    simp [hasTime, hnone] at this
  · rw [Services.length_dropWhile_hasTime hdropA,
      Services.length_dropWhile_hasTime hdropD,
      (Services.sortByCreatedTime_perm l "asc").countP_eq,
      (Services.sortByCreatedTime_perm l "desc").countP_eq]
  · exact (Services.sortByCreatedTime_perm l "asc").length_eq
  · exact (Services.sortByCreatedTime_perm l "desc").length_eq

/-- C8 witness: the theorem applied to the concrete list
[snapB, snapA, snapN]. -/
theorem sort_reversal_spec_witness :
    ((Services.sortByCreatedTime [snapB, snapA, snapN] "asc").filterMap
        Snapshot.startTime).reverse =
        (Services.sortByCreatedTime [snapB, snapA, snapN] "desc").filterMap
          Snapshot.startTime ∧
    (∀ x ∈ (Services.sortByCreatedTime [snapB, snapA, snapN] "asc").takeWhile
        hasTime, x.startTime ≠ none) ∧
    (∀ x ∈ (Services.sortByCreatedTime [snapB, snapA, snapN] "asc").dropWhile
        hasTime, x.startTime = none) ∧
    (∀ x ∈ (Services.sortByCreatedTime [snapB, snapA, snapN] "desc").takeWhile
        hasTime, x.startTime ≠ none) ∧
    (∀ x ∈ (Services.sortByCreatedTime [snapB, snapA, snapN] "desc").dropWhile
        hasTime, x.startTime = none) ∧
    ((Services.sortByCreatedTime [snapB, snapA, snapN] "asc").dropWhile
        hasTime).length =
      ((Services.sortByCreatedTime [snapB, snapA, snapN] "desc").dropWhile
        hasTime).length ∧
    (Services.sortByCreatedTime [snapB, snapA, snapN] "asc").length =
        ([snapB, snapA, snapN] : List Snapshot).length ∧
    (Services.sortByCreatedTime [snapB, snapA, snapN] "desc").length =
        ([snapB, snapA, snapN] : List Snapshot).length :=
  sort_reversal_spec [snapB, snapA, snapN] (List.cons_ne_nil snapB [snapA, snapN])
